import Mathlib

/-!
Verification of the `static_hash` CRC32 core: the table-driven reference
engine (`crc32_reference`, src/vr/crc32.cpp), the hardware-accelerated
engine (`crc32`), the compile-time hasher (`crc32_constexpr` behind
`operator "" _hash`, src/vr/hashing.h), the `str_hash` overloads, and the
equivalence-test harness (`test_crc32`, src/test.cpp).

Machine integers are modelled as `Nat` with explicit truncation modulo
`2 ^ 32` where `uint32_t` arithmetic could overflow.  Byte buffers are
`List Nat` whose elements are byte values (only their low 8 bits ever
matter to the algorithm, mirroring `uint8_t`).

The repository header `vr/crc32.h` (the 256-entry polynomial table, the
constexpr CRC, and the fast buffer-level `crc32`) is not among the source
files; those pieces are modelled from the spec and are marked as such in
their doc comments.
-/

namespace StaticHash

/-- Modelled from the spec: the CRC-32 (IEEE 802.3) generator polynomial in
reflected form, `0xEDB88320`, used by the polynomial table of `vr/crc32.h`
(header not present among the sources). -/
def CRC_POLY : Nat := 0xEDB88320

/-- Modelled from the spec: one bit-reflected CRC division step on the
32-bit register `r`: shift right by one and XOR in the reflected polynomial
when the dropped bit was set. -/
def crcStep1 (r : Nat) : Nat :=
  if r % 2 = 1 then (r / 2) ^^^ CRC_POLY else r / 2

/-- Modelled from the spec: entry generator for `impl::g_crctable` of
`vr/crc32.h` (header not present among the sources): the 8-step
bit-reflected CRC division of byte `i`, starting from an internal register
of value `i` and seed 0. -/
def crc_div8 (i : Nat) : Nat := crcStep1^[8] i

/-- Modelled from the spec: `impl::g_crctable`, the precomputed polynomial
lookup table of exactly 256 unsigned 32-bit values, entry `i` being the
8-step bit-reflected CRC division of byte `i`. -/
def g_crctable : List Nat := (List.range 256).map crc_div8

/-- Table lookup `impl::g_crctable[i]` (out-of-range indices, which the
engines never produce, default to 0). -/
def tbl (i : Nat) : Nat := g_crctable.getD i 0

/-- The loop body of `crc32_reference` (src/vr/crc32.cpp line 14):
`crc = (crc >> 8) ^ impl::g_crctable [(crc ^ (* buf ++)) & 0xFF]`,
truncated to 32 bits as `uint32_t` arithmetic is. -/
def crcByteStep (crc b : Nat) : Nat :=
  ((crc >>> 8) ^^^ tbl ((crc ^^^ b) &&& 0xFF)) % 2 ^ 32

/-- `crc32_reference (buf, len, crc)` from src/vr/crc32.cpp: the while loop
`while (len --) crc = (crc >> 8) ^ impl::g_crctable [(crc ^ (* buf ++)) & 0xFF]`
folds exactly `len` bytes of `buf` into `crc` and returns the final register
value.  (If `len` exceeds the buffer the C code reads out of bounds; the
model returns the register accumulated so far, and every theorem that could
reach that case carries `len ≤ buf.length`.) -/
def crc32_reference : List Nat → Nat → Nat → Nat
  | _, 0, crc => crc
  | [], _ + 1, crc => crc
  | b :: bs, len + 1, crc => crc32_reference bs len (crcByteStep crc b)

/-- Modelled from the spec: the hardware checksum primitive behind the
`vr::crc32` wrappers of src/vr/intrinsics.h (`_mm_crc32_u8/u16/u32/u64`),
whose contract is: given a 32-bit running checksum and an N-bit data word,
return the checksum as if that word's bytes had been folded in one byte at
a time via the Reference Engine's step function. -/
def hw_crc32_word (crc : Nat) (chunk : List Nat) : Nat :=
  chunk.foldl crcByteStep crc

/-- Modelled from the spec: the hardware-accelerated buffer-level
`crc32 (buf, len, crc)` declared in `vr/crc32.h` (header not present among
the sources): process the buffer with the largest chunk the checksum
instruction supports, 8-byte, 4-byte, 2-byte, 1-byte steps, largest first,
falling back to smaller widths for the remainder, consuming exactly `len`
bytes. -/
def crc32_fast (buf : List Nat) (len : Nat) (crc : Nat) : Nat :=
  if h8 : 8 ≤ len then
    crc32_fast (buf.drop 8) (len - 8) (hw_crc32_word crc (buf.take 8))
  else if h4 : 4 ≤ len then
    crc32_fast (buf.drop 4) (len - 4) (hw_crc32_word crc (buf.take 4))
  else if h2 : 2 ≤ len then
    crc32_fast (buf.drop 2) (len - 2) (hw_crc32_word crc (buf.take 2))
  else if h1 : 1 ≤ len then
    crc32_fast (buf.drop 1) (len - 1) (hw_crc32_word crc (buf.take 1))
  else crc
termination_by len
decreasing_by
  all_goals omega

/-- `src_hash_seed ()` from src/vr/hashing.h: the fixed seed value 1. -/
def src_hash_seed : Nat := 1

/-- Modelled from the spec: `crc32_constexpr (str, len, crc)` declared in
`vr/crc32.h` (header not present among the sources): a build-time-evaluable
pure recursion producing the same checksum as the Reference Engine, one
byte per recursive call, left to right. -/
def crc32_constexpr : List Nat → Nat → Nat → Nat
  | _, 0, crc => crc
  | [], _ + 1, crc => crc
  | b :: bs, len + 1, crc => crc32_constexpr bs len (crcByteStep crc b)

/-- `operator "" _hash (str, len)` from src/vr/hashing.h: the user-defined
string-literal hash, `crc32_constexpr (str, len, src_hash_seed ())` where
`len` is the literal's length. -/
def lit_hash (s : List Nat) : Nat := crc32_constexpr s s.length src_hash_seed

/-- `str_hash (char const *, int32_t)` from src/vr/hashing.h:
`crc32 (str, len, src_hash_seed ())`, the hardware engine at seed 1. -/
def str_hash_n (s : List Nat) (len : Nat) : Nat :=
  crc32_fast s len src_hash_seed

/-- C `strlen` on the model of a NUL-terminated buffer: the number of
bytes before the first 0. -/
def strlen (s : List Nat) : Nat := (s.takeWhile (fun b => b != 0)).length

/-- `str_hash (char const *)` from src/vr/hashing.h:
`str_hash (str, std::strlen (str))`. -/
def str_hash_c (s : List Nat) : Nat := str_hash_n s (strlen s)

/-- `str_hash (std::string const &)` from src/vr/hashing.h:
`str_hash (str.data (), str.size ())`. -/
def str_hash_s (s : List Nat) : Nat := str_hash_n s s.length

/-- `len_max` from src/test.cpp line 17: the exclusive bound on tested
lengths; the length loop runs `for (len = 0; len < len_max; ++len)`. -/
def len_max : Nat := 109

/-- `len_repeats` from src/test.cpp line 18: random buffers generated per
length. -/
def len_repeats : Nat := 5000

/-- The lengths the test harness exercises: `0, 1, ..., len_max - 1`
(src/test.cpp line 22). -/
def tested_lengths : List Nat := List.range len_max

/-- The random buffer of trial `(len, r)` in src/test.cpp lines 26-28,
`for (i = 0; i < len; ++i) buf[i] = rng (g)`: the Mersenne-twister byte
stream is abstracted as an oracle `g` giving byte `i` of trial `(len, r)`;
`% 256` models the `uniform_int_distribution {0, 255}` byte range. -/
def test_buffer (g : Nat → Nat → Nat → Nat) (len r : Nat) : List Nat :=
  (List.range len).map (fun i => g len r i % 256)

/-- One trial of src/test.cpp lines 31-36: compare
`crc32_reference (buf, len, src_hash_seed ())` with the fast engine on the
same buffer; `fast` abstracts the linked hardware `crc32`, the
implementation under test. -/
def trial_ok (g : Nat → Nat → Nat → Nat)
    (fast : List Nat → Nat → Nat → Nat) (len r : Nat) : Bool :=
  crc32_reference (test_buffer g len r) len src_hash_seed ==
    fast (test_buffer g len r) len src_hash_seed

/-- `test_crc32 ()` from src/test.cpp: the nested loops over lengths and
repeats, returning false on the first mismatching trial (`return false`)
and true if every trial agreed (`&&` in `List.all` short-circuits exactly
as the early `return` does). -/
def test_crc32 (g : Nat → Nat → Nat → Nat)
    (fast : List Nat → Nat → Nat → Nat) : Bool :=
  tested_lengths.all (fun len =>
    (List.range len_repeats).all (fun r => trial_ok g fast len r))

/-- Step-indexed model of the `while (len --)` loop of `crc32_reference`
(src/vr/crc32.cpp): `gas` is the number of loop iterations still allowed;
`none` means the loop did not finish within `gas` iterations. -/
def crc32_ref_loop : Nat → List Nat → Nat → Nat → Option Nat
  | _, _, 0, crc => some crc
  | 0, _, _ + 1, _ => none
  | _ + 1, [], _ + 1, _ => none
  | gas + 1, b :: bs, len + 1, crc => crc32_ref_loop gas bs len (crcByteStep crc b)

/-- The polynomial-table specification exactly as claimed: the 8-step
bit-reflected CRC division of byte `i` against the reflected IEEE 802.3
polynomial `0xEDB88320`, starting from an internal register of value `i`
and seed 0. -/
def spec_table_entry (i : Nat) : Nat := crcStep1^[8] (0 ^^^ i)

/-- One division step keeps the register inside 32 bits. -/
theorem crcStep1_lt {r : Nat} (h : r < 2 ^ 32) : crcStep1 r < 2 ^ 32 := by
  unfold crcStep1
  split
  · exact Nat.xor_lt_two_pow (lt_of_le_of_lt (Nat.div_le_self r 2) h) (by norm_num [CRC_POLY])
  · exact lt_of_le_of_lt (Nat.div_le_self r 2) h

/-- Iterating the division step keeps the register inside 32 bits. -/
theorem crcStep1_iterate_lt (n : Nat) {r : Nat} (h : r < 2 ^ 32) :
    crcStep1^[n] r < 2 ^ 32 := by
  induction n generalizing r with
  | zero => exact h
  | succ n ih => rw [Function.iterate_succ_apply]; exact ih (crcStep1_lt h)

/-- Table lookup at an in-range index is the 8-step division of the index. -/
theorem tbl_eq_crc_div8 {i : Nat} (hi : i < 256) : tbl i = crc_div8 i := by
  have hlen : i < g_crctable.length := by
    simpa [g_crctable] using hi
  rw [tbl, List.getD_eq_getElem g_crctable 0 hlen]
  simp [g_crctable]

/-- Every table lookup is a 32-bit value. -/
theorem tbl_lt (i : Nat) : tbl i < 2 ^ 32 := by
  by_cases hi : i < 256
  · rw [tbl_eq_crc_div8 hi, crc_div8]
    exact crcStep1_iterate_lt 8 (lt_trans hi (by norm_num))
  · rw [tbl, List.getD_eq_default]
    · norm_num
    · simpa [g_crctable] using Nat.le_of_not_lt hi

/-- The loop body always yields a 32-bit value. -/
theorem crcByteStep_lt (crc b : Nat) : crcByteStep crc b < 2 ^ 32 :=
  Nat.mod_lt _ (by norm_num)

/-- On an in-range register the `% 2 ^ 32` truncation of the loop body is
the identity: the body is exactly the formula of the source. -/
theorem crcByteStep_eq_of_lt {crc : Nat} (b : Nat) (h : crc < 2 ^ 32) :
    crcByteStep crc b = (crc >>> 8) ^^^ tbl ((crc ^^^ b) &&& 0xFF) := by
  have hshift : crc >>> 8 ≤ crc := by
    rw [Nat.shiftRight_eq_div_pow]; exact Nat.div_le_self _ _
  exact Nat.mod_eq_of_lt
    (Nat.xor_lt_two_pow (lt_of_le_of_lt hshift h) (tbl_lt _))

/-- The while loop of `crc32_reference` is a left fold of the loop body
over the first `len` bytes. -/
theorem crc32_reference_eq_foldl :
    ∀ (buf : List Nat) (len crc : Nat), len ≤ buf.length →
      crc32_reference buf len crc = (buf.take len).foldl crcByteStep crc := by
  intro buf
  induction buf with
  | nil =>
    intro len crc hlen
    have : len = 0 := by simpa using hlen
    subst this
    rfl
  | cons b bs ih =>
    intro len crc hlen
    cases len with
    | zero => rfl
    | succ n =>
      rw [crc32_reference, List.take_succ_cons, List.foldl_cons]
      exact ih n (crcByteStep crc b) (by simpa using hlen)

/-- The forward recursion of the compile-time hasher computes exactly the
reference engine's value. -/
theorem crc32_constexpr_eq_reference :
    ∀ (buf : List Nat) (len crc : Nat),
      crc32_constexpr buf len crc = crc32_reference buf len crc := by
  intro buf
  induction buf with
  | nil => intro len crc; cases len <;> rfl
  | cons b bs ih =>
    intro len crc
    cases len with
    | zero => rfl
    | succ n => rw [crc32_constexpr, crc32_reference]; exact ih n (crcByteStep crc b)

/-- Folding a leading chunk through the hardware primitive and then the
rest of the bytes is the same as folding all `len` bytes. -/
theorem foldl_chunk (buf : List Nat) (k len crc : Nat) (hk : k ≤ len) :
    ((buf.drop k).take (len - k)).foldl crcByteStep (hw_crc32_word crc (buf.take k)) =
      (buf.take len).foldl crcByteStep crc := by
  have h : k + (len - k) = len := by omega
  calc ((buf.drop k).take (len - k)).foldl crcByteStep (hw_crc32_word crc (buf.take k))
      = (buf.take k ++ (buf.drop k).take (len - k)).foldl crcByteStep crc := by
        rw [List.foldl_append]; rfl
    _ = (buf.take (k + (len - k))).foldl crcByteStep crc := by rw [List.take_add]
    _ = (buf.take len).foldl crcByteStep crc := by rw [h]

/-- The chunking cascade of the hardware engine computes the same left fold
as the reference loop. -/
theorem crc32_fast_eq_foldl :
    ∀ (len : Nat) (buf : List Nat) (crc : Nat), len ≤ buf.length →
      crc32_fast buf len crc = (buf.take len).foldl crcByteStep crc := by
  intro len
  induction len using Nat.strong_induction_on with
  | _ len ih =>
    intro buf crc hlen
    rw [crc32_fast]
    split
    case isTrue h8 =>
      rw [ih (len - 8) (by omega) _ _ (by simp [List.length_drop]; omega)]
      exact foldl_chunk buf 8 len crc h8
    case isFalse h8 =>
      split
      case isTrue h4 =>
        rw [ih (len - 4) (by omega) _ _ (by simp [List.length_drop]; omega)]
        exact foldl_chunk buf 4 len crc h4
      case isFalse h4 =>
        split
        case isTrue h2 =>
          rw [ih (len - 2) (by omega) _ _ (by simp [List.length_drop]; omega)]
          exact foldl_chunk buf 2 len crc h2
        case isFalse h2 =>
          split
          case isTrue h1 =>
            rw [ih (len - 1) (by omega) _ _ (by simp [List.length_drop]; omega)]
            exact foldl_chunk buf 1 len crc h1
          case isFalse h1 =>
            have : len = 0 := by omega
            subst this
            rfl

/-- The hardware engine and the reference engine agree on every buffer,
length and seed. -/
theorem crc32_fast_eq_reference (buf : List Nat) (len crc : Nat)
    (hlen : len ≤ buf.length) :
    crc32_fast buf len crc = crc32_reference buf len crc := by
  rw [crc32_fast_eq_foldl len buf crc hlen, crc32_reference_eq_foldl buf len crc hlen]

/-- Starting from a 32-bit register, folding with the truncating loop body
is the same as folding with the source's untruncated formula. -/
theorem foldl_crcByteStep_nomod :
    ∀ (l : List Nat) (crc : Nat), crc < 2 ^ 32 →
      l.foldl crcByteStep crc =
        l.foldl (fun c b => (c >>> 8) ^^^ tbl ((c ^^^ b) &&& 0xFF)) crc := by
  intro l
  induction l with
  | nil => intro crc _; rfl
  | cons b bs ih =>
    intro crc h
    rw [List.foldl_cons, List.foldl_cons, ← crcByteStep_eq_of_lt b h]
    exact ih (crcByteStep crc b) (crcByteStep_lt crc b)

/-- Every trial buffer has exactly the trial's length. -/
theorem length_test_buffer (g : Nat → Nat → Nat → Nat) (len r : Nat) :
    (test_buffer g len r).length = len := by
  simp [test_buffer]

/-- The harness verdict, unfolded: true exactly when every tested
(length, repeat) trial found the two engines equal. -/
theorem test_crc32_eq_true_iff (g : Nat → Nat → Nat → Nat)
    (fast : List Nat → Nat → Nat → Nat) :
    test_crc32 g fast = true ↔
      ∀ len, len < len_max → ∀ r, r < len_repeats →
        crc32_reference (test_buffer g len r) len src_hash_seed =
          fast (test_buffer g len r) len src_hash_seed := by
  simp [test_crc32, tested_lengths, trial_ok, List.all_eq_true, List.mem_range]

/-- With the hardware engine of this development in the fast slot, every
trial agrees and the harness passes, whatever the random stream. -/
theorem test_crc32_passes (g : Nat → Nat → Nat → Nat) :
    test_crc32 g crc32_fast = true :=
  (test_crc32_eq_true_iff g crc32_fast).mpr (fun len _ r _ =>
    (crc32_fast_eq_reference (test_buffer g len r) len src_hash_seed
      (by rw [length_test_buffer])).symm)

/-- Claim C1: for every byte buffer `B`, every length `len >= 0`, and every
32-bit seed `S`, the hardware-accelerated engine `crc32 (B, len, S)`
returns a value bit-for-bit equal to `crc32_reference (B, len, S)`. -/
theorem claim_C1_hw_eq_reference (buf : List Nat) (len seed : Nat)
    (hlen : len ≤ buf.length) (hseed : seed < 2 ^ 32) :
    crc32_fast buf len seed = crc32_reference buf len seed :=
  crc32_fast_eq_reference buf len seed hlen

/-- Witness for C1 at a concrete buffer, length and seed. -/
theorem claim_C1_witness :
    10 ≤ (List.range 16).length ∧ (1 : Nat) < 2 ^ 32 ∧
      crc32_fast (List.range 16) 10 1 = crc32_reference (List.range 16) 10 1 :=
  ⟨by decide, by decide,
    claim_C1_hw_eq_reference (List.range 16) 10 1 (by decide) (by decide)⟩

/-- Claim C2: `crc32_reference (buffer, length, seed)` folds exactly
`length` bytes, left to right in buffer order with no skipping or
reordering, updating the register by
`checksum = (checksum >> 8) XOR table [(checksum XOR b) & 0xFF]` for each
byte `b`, and returns the final register value with no final complement or
XOR applied. -/
theorem claim_C2_reference_fold (buf : List Nat) (len crc : Nat)
    (hlen : len ≤ buf.length) (hcrc : crc < 2 ^ 32) :
    crc32_reference buf len crc =
      (buf.take len).foldl (fun c b => (c >>> 8) ^^^ tbl ((c ^^^ b) &&& 0xFF)) crc ∧
    (buf.take len).length = len := by
  constructor
  · rw [crc32_reference_eq_foldl buf len crc hlen]
    exact foldl_crcByteStep_nomod (buf.take len) crc hcrc
  · simp [List.length_take]
    omega

/-- Witness for C2 at a concrete buffer, length and seed. -/
theorem claim_C2_witness :
    2 ≤ ([10, 20, 30] : List Nat).length ∧ (5 : Nat) < 2 ^ 32 ∧
      (crc32_reference [10, 20, 30] 2 5 =
        (([10, 20, 30] : List Nat).take 2).foldl
          (fun c b => (c >>> 8) ^^^ tbl ((c ^^^ b) &&& 0xFF)) 5 ∧
       (([10, 20, 30] : List Nat).take 2).length = 2) :=
  ⟨by decide, by decide, claim_C2_reference_fold [10, 20, 30] 2 5 (by decide) (by decide)⟩

/-- Claim C3: for every string known at build time, the compile-time hash
(`operator "" _hash`, i.e. `crc32_constexpr` at seed `src_hash_seed () = 1`)
equals what the run-time path produces for the same characters: both
`str_hash` (hardware engine) and `crc32_reference` on the string's bytes
with the fixed seed 1. -/
theorem claim_C3_const_hash_eq_runtime (s : List Nat) :
    src_hash_seed = 1 ∧
    lit_hash s = crc32_reference s s.length 1 ∧
    lit_hash s = str_hash_s s := by
  refine ⟨rfl, ?_, ?_⟩
  · rw [lit_hash, crc32_constexpr_eq_reference]; rfl
  · rw [lit_hash, crc32_constexpr_eq_reference, str_hash_s, str_hash_n,
      crc32_fast_eq_reference s s.length src_hash_seed le_rfl]

set_option maxRecDepth 10000 in
/-- Claim C4: for every `i` in 0..255, the polynomial table entry
`table [i]` equals the 8-step bit-reflected CRC division of byte `i`
against the reflected IEEE 802.3 polynomial `0xEDB88320`, starting from an
internal register of value `i` and seed 0; spot-checked against the
well-known published values of that table at 0, 1, 128 and 255. -/
theorem claim_C4_table_entries (i : Nat) (hi : i < 256) :
    tbl i = spec_table_entry i ∧ g_crctable.length = 256 ∧
    tbl 0 = 0 ∧ tbl 1 = 0x77073096 ∧ tbl 128 = 0xEDB88320 ∧
    tbl 255 = 0x2D02EF8D := by
  refine ⟨?_, by simp [g_crctable], by decide, by decide, by decide, by decide⟩
  rw [tbl_eq_crc_div8 hi, crc_div8, spec_table_entry, Nat.zero_xor]

/-- Witness for C4 at a concrete table index. -/
theorem claim_C4_witness :
    tbl 7 = spec_table_entry 7 ∧ g_crctable.length = 256 ∧
    tbl 0 = 0 ∧ tbl 1 = 0x77073096 ∧ tbl 128 = 0xEDB88320 ∧
    tbl 255 = 0x2D02EF8D :=
  claim_C4_table_entries 7 (by decide)

/-- Claim C5 as stated is false: the harness length loop stops at
`len_max = 109` (src/test.cpp line 17 and 22), so length 256 — required by
the claim's range [0, 256] — is never exercised. -/
theorem claim_C5_counterexample : tested_lengths.contains 256 = false := by
  decide

/-- Claim C5, amended: the equivalence test exercises every length `L` in
[0, 109) — not [0, 256] — with `len_repeats = 5000 >= 1000` random buffers
per length, each trial checking
`crc32_reference (B, L, S) == crc32 (B, L, S)` for the fixed seed
`S = src_hash_seed () = 1`. -/
theorem claim_C5_amended_coverage (L r : Nat) (g : Nat → Nat → Nat → Nat)
    (fast : List Nat → Nat → Nat → Nat)
    (hL : L < len_max) (hr : r < len_repeats)
    (hpass : test_crc32 g fast = true) :
    L ∈ tested_lengths ∧ 1000 ≤ len_repeats ∧ src_hash_seed = 1 ∧
      crc32_reference (test_buffer g L r) L src_hash_seed =
        fast (test_buffer g L r) L src_hash_seed := by
  refine ⟨?_, by norm_num [len_repeats], rfl, ?_⟩
  · simpa [tested_lengths, List.mem_range] using hL
  · exact (test_crc32_eq_true_iff g fast).mp hpass L hL r hr

/-- Witness for the amended C5 at a concrete length, repeat and stream. -/
theorem claim_C5_witness :
    5 ∈ tested_lengths ∧ 1000 ≤ len_repeats ∧ src_hash_seed = 1 ∧
      crc32_reference (test_buffer (fun _ _ i => i) 5 0) 5 src_hash_seed =
        crc32_fast (test_buffer (fun _ _ i => i) 5 0) 5 src_hash_seed :=
  claim_C5_amended_coverage 5 0 (fun _ _ i => i) crc32_fast
    (by decide) (by decide) (test_crc32_passes (fun _ _ i => i))

/-- Claim C6: the equivalence verifier `test_crc32` returns true if and
only if every (length, repeat) trial found the two engines' results
bit-for-bit equal; any single mismatch makes the whole run fail (the
short-circuit of `&&` mirrors the `return false` of src/test.cpp). -/
theorem claim_C6_verdict (g : Nat → Nat → Nat → Nat)
    (fast : List Nat → Nat → Nat → Nat) :
    test_crc32 g fast = true ↔
      ∀ len, len < len_max → ∀ r, r < len_repeats →
        crc32_reference (test_buffer g len r) len src_hash_seed =
          fast (test_buffer g len r) len src_hash_seed :=
  test_crc32_eq_true_iff g fast

/-- Witness for C6: the verdict at a concrete stream and fast engine. -/
theorem claim_C6_witness : test_crc32 (fun _ _ i => i + 3) crc32_fast = true :=
  (claim_C6_verdict (fun _ _ i => i + 3) crc32_fast).mpr (fun len _ r _ =>
    (crc32_fast_eq_reference (test_buffer (fun _ _ i => i + 3) len r) len
      src_hash_seed (by rw [length_test_buffer])).symm)

/-- Claim C7: hashing the literal "abcd" (bytes 97, 98, 99, 100) with seed
1 via `crc32_reference` and via the compile-time hasher produces the
identical 32-bit value `0x747A7568`, and that value differs from the hashes
of "fgh" (bytes 102, 103, 104) and of "abracadabra", so the dispatch switch
of src/main.cpp routes each of the three strings to its own branch. -/
theorem claim_C7_dispatch_trio :
    crc32_reference [97, 98, 99, 100] 4 src_hash_seed = lit_hash [97, 98, 99, 100] ∧
    lit_hash [97, 98, 99, 100] = 0x747A7568 ∧
    lit_hash [102, 103, 104] = 0x244DC9AF ∧
    lit_hash [97, 98, 114, 97, 99, 97, 100, 97, 98, 114, 97] = 0xBDE3979B ∧
    lit_hash [97, 98, 99, 100] ≠ lit_hash [102, 103, 104] ∧
    lit_hash [97, 98, 99, 100] ≠ lit_hash [97, 98, 114, 97, 99, 97, 100, 97, 98, 114, 97] ∧
    lit_hash [102, 103, 104] ≠ lit_hash [97, 98, 114, 97, 99, 97, 100, 97, 98, 114, 97] := by
  refine ⟨by decide, by decide, by decide, by decide, by decide, by decide, by decide⟩

/-- Claim C8: for every buffer and every 32-bit seed `S`,
`crc32_reference (B, 0, S) = S`: with length zero the loop runs zero times
and the seed is returned unchanged. -/
theorem claim_C8_empty_input (buf : List Nat) (S : Nat) (hS : S < 2 ^ 32) :
    crc32_reference buf 0 S = S := by
  cases buf <;> rfl

/-- Witness for C8 at a concrete buffer and seed. -/
theorem claim_C8_witness : crc32_reference [9, 9, 9] 0 7 = 7 :=
  claim_C8_empty_input [9, 9, 9] 7 (by decide)

/-- Claim C9: under `length >= 0` (and a buffer holding at least `length`
bytes), the while loop of `crc32_reference` terminates: it finishes within
any iteration budget of at least `length` — producing exactly
`crc32_reference`'s value — and within no smaller budget, i.e. it performs
exactly `length` iterations. -/
theorem claim_C9_termination (buf : List Nat) (len crc gas : Nat)
    (hlen : len ≤ buf.length) :
    (len ≤ gas →
      crc32_ref_loop gas buf len crc = some (crc32_reference buf len crc)) ∧
    (gas < len → crc32_ref_loop gas buf len crc = none) := by
  induction buf generalizing len crc gas with
  | nil =>
    have : len = 0 := by simpa using hlen
    subst this
    exact ⟨fun _ => by cases gas <;> rfl, fun h => absurd h (by omega)⟩
  | cons b bs ih =>
    cases len with
    | zero => exact ⟨fun _ => by cases gas <;> rfl, fun h => absurd h (by omega)⟩
    | succ n =>
      cases gas with
      | zero => exact ⟨fun h => absurd h (by omega), fun _ => rfl⟩
      | succ m =>
        have hbs : n ≤ bs.length := by simpa using hlen
        constructor
        · intro h
          rw [crc32_ref_loop, crc32_reference]
          exact (ih n (crcByteStep crc b) m hbs).1 (by omega)
        · intro h
          rw [crc32_ref_loop]
          exact (ih n (crcByteStep crc b) m hbs).2 (by omega)

/-- Witness for C9: with enough gas the loop finishes with the reference
value; with less than `length` iterations allowed it does not finish. -/
theorem claim_C9_witness :
    crc32_ref_loop 5 [1, 2, 3] 3 1 = some (crc32_reference [1, 2, 3] 3 1) ∧
    crc32_ref_loop 2 [1, 2, 3] 3 1 = none :=
  ⟨(claim_C9_termination [1, 2, 3] 3 1 5 (by decide)).1 (by decide),
   (claim_C9_termination [1, 2, 3] 3 1 2 (by decide)).2 (by decide)⟩

/-- Claim C10: the three `str_hash` overloads agree — the C-string overload
equals the counted overload at `strlen`, the `std::string` overload equals
the counted overload at the string's size — and each equals the hardware
`crc32` of the same bytes with the fixed seed 1 (and thereby the reference
engine's value). -/
theorem claim_C10_str_hash_overloads (s t : List Nat) :
    str_hash_c s = str_hash_n s (strlen s) ∧
    str_hash_s t = str_hash_n t t.length ∧
    str_hash_c s = crc32_fast s (strlen s) 1 ∧
    str_hash_s t = crc32_fast t t.length 1 ∧
    str_hash_s t = crc32_reference t t.length 1 := by
  refine ⟨rfl, rfl, rfl, rfl, ?_⟩
  rw [str_hash_s, str_hash_n,
    crc32_fast_eq_reference t t.length src_hash_seed le_rfl]
  rfl

end StaticHash
